import Mathlib

/-!
Verification of the djblets core: the atomic `CounterField`
(`djblets/db/fields/counter_field.py`) and the `AvatarServiceRegistry`
(`djblets/avatars/registry.py`), shallowly embedded in Lean.

The database is modelled as an association list from primary key to the
(nullable) stored counter column; every storage round trip performed by the
code is recorded in an explicit trace of `DbOp` operations, so that claims
about "exactly one atomic arithmetic update" or "no write to the store"
become statements about the trace and the state.
-/

namespace Djblets

/-! ## Counter field: database model -/

/-- The stored counter column is nullable (`CounterField.__init__` forces
`null=True`), so a row maps the primary key to an `Option Int`. -/
abbrev Db := List (Nat × Option Int)

/-- A storage round trip issued by the counter code.  The `Option Nat` is the
primary-key filter of the statement (`filter(pk=...)`). -/
inductive DbOp where
  /-- `UPDATE ... SET col = col + d WHERE pk` (from `F(attname) + d`). -/
  | arithAdd (pkf : Option Nat) (d : Int)
  /-- `UPDATE ... SET col = col - d WHERE pk` (from `F(attname) - d`). -/
  | arithSub (pkf : Option Nat) (d : Int)
  /-- `UPDATE ... SET col = <deferred expression> WHERE pk`. -/
  | exprUpdate (pkf : Option Nat)
  /-- `UPDATE ... SET col = v WHERE pk` (a plain single-field write from
  `save(update_fields=[attname])`). -/
  | fieldWrite (pkf : Option Nat) (v : Option Int)
  /-- `SELECT col ... WHERE pk` (from `q.values(attname)[0]`). -/
  | read (pkf : Option Nat)
deriving DecidableEq, Repr

/-- Read the stored column for a primary key: `some v` when the row exists
(`v` is the nullable column value), `none` when it does not. -/
def dbLookup : Db → Nat → Option (Option Int)
  | [], _ => none
  | (k, v) :: rest, p => if k = p then some v else dbLookup rest p

/-- One SQL `UPDATE` statement: rewrite the column of every row matching the
pk filter with the given column transformer. -/
def dbUpdateWhere : Db → Option Nat → (Option Int → Option Int) → Db
  | [], _, _ => []
  | (k, v) :: rest, pkf, g =>
    (k, if some k = pkf then g v else v) :: dbUpdateWhere rest pkf g

/-- Storage-side `col = col + d` over the rows matching the pk filter.  SQL
`NULL + d` is `NULL`, hence the inner `Option.map`. -/
def dbArithAdd (db : Db) (pkf : Option Nat) (d : Int) : Db :=
  dbUpdateWhere db pkf (Option.map (· + d))

/-- Storage-side `col = col - d` over the rows matching the pk filter. -/
def dbArithSub (db : Db) (pkf : Option Nat) (d : Int) : Db :=
  dbUpdateWhere db pkf (Option.map (· - d))

/-- Storage-side `col = v` over the rows matching the pk filter. -/
def dbFieldWrite (db : Db) (pkf : Option Nat) (v : Option Int) : Db :=
  dbUpdateWhere db pkf (fun _ => v)

/-- A deferred storage-side expression (`QueryExpressionType` in the source):
evaluated at write time against the row's current column value, never in
application memory.  `colPlus k` stands for `F(attname) + k`. -/
inductive DbExpr where
  | colPlus (k : Int)
deriving DecidableEq, Repr

/-- Evaluate a deferred expression storage-side against the current column. -/
def evalDbExpr : DbExpr → Option Int → Option Int
  | .colPlus k, o => o.map (· + k)

/-- Storage-side `col = <expr> WHERE pk`. -/
def dbExprUpdate (db : Db) (pkf : Option Nat) (e : DbExpr) : Db :=
  dbUpdateWhere db pkf (evalDbExpr e)

/-- A model instance: its primary key (`None` before the row is created),
its Python object identity `id(instance)` used for the re-entrancy locks, and
the in-memory counter value (`None` means "not yet initialized"). -/
structure ModelInstance where
  pk : Option Nat
  iid : Nat
  value : Option Int
deriving DecidableEq, Repr

/-- Python truthiness of `model_instance.pk` (`None` and `0` are falsy). -/
def pkTruthy : Option Nat → Bool
  | none => false
  | some n => n != 0

/-- `CounterField._reload_model_instance` restricted to the one counter
column: `q.values(attname)[0]` fails (IndexError) when no row matches, so the
result is `none` in that case. -/
def reloadModelInstance (db : Db) (inst : ModelInstance) : Option ModelInstance :=
  match inst.pk with
  | none => none
  | some p =>
    match dbLookup db p with
    | some v => some { inst with value := v }
    | none => none

/-! ## Counter field: increment / decrement -/

/-- `CounterField.increment`: one `queryset.update(attname=F(attname) + by)`
against the pk-filtered queryset.  Returns the new database and the single
storage operation issued. -/
def counterQsIncrement (db : Db) (pkf : Option Nat) (incrementBy : Int) : Db × DbOp :=
  (dbArithAdd db pkf incrementBy, DbOp.arithAdd pkf incrementBy)

/-- `CounterField.decrement`: one `queryset.update(attname=F(attname) - by)`. -/
def counterQsDecrement (db : Db) (pkf : Option Nat) (decrementBy : Int) : Db × DbOp :=
  (dbArithSub db pkf decrementBy, DbOp.arithSub pkf decrementBy)

/-- `CounterField._increment(model_instance, reload_object, increment_by)`:
if the delta is nonzero, issue the single arithmetic update scoped by the
instance's pk, then optionally reload.  `none` in the first component models
the IndexError raised when the reload finds no row; the trace records every
storage operation issued up to that point. -/
def counterIncrement (db : Db) (inst : ModelInstance) (reloadObject : Bool)
    (incrementBy : Int) : Option (Db × ModelInstance) × List DbOp :=
  if incrementBy = 0 then (some (db, inst), [])
  else
    let (db1, op1) := counterQsIncrement db inst.pk incrementBy
    if reloadObject then
      match reloadModelInstance db1 inst with
      | some inst1 => (some (db1, inst1), [op1, DbOp.read inst.pk])
      | none => (none, [op1])
    else (some (db1, inst), [op1])

/-- `CounterField._decrement(model_instance, reload_object, decrement_by)`. -/
def counterDecrement (db : Db) (inst : ModelInstance) (reloadObject : Bool)
    (decrementBy : Int) : Option (Db × ModelInstance) × List DbOp :=
  if decrementBy = 0 then (some (db, inst), [])
  else
    let (db1, op1) := counterQsDecrement db inst.pk decrementBy
    if reloadObject then
      match reloadModelInstance db1 inst with
      | some inst1 => (some (db1, inst1), [op1, DbOp.read inst.pk])
      | none => (none, [op1])
    else (some (db1, inst), [op1])

/-! ## Counter field: reinit and the lazy-initialization lock -/

/-- A value produced by the initializer: a concrete integer or a deferred
storage-side expression. -/
inductive CounterValue where
  | intVal (n : Int)
  | exprVal (e : DbExpr)
deriving DecidableEq, Repr

/-- `isinstance(value, QueryExpressionType)`. -/
def isExprVal : CounterValue → Bool
  | .intVal _ => false
  | .exprVal _ => true

/-- The `initializer` argument of `CounterField.__init__`: absent, a deferred
expression, or a callable.  The callable receives the database, the current
lock set (so that a nested trigger of the same field can be expressed), and
the instance; it returns an integer, an expression, or `None`. -/
inductive Initializer where
  | noInit
  | exprInit (e : DbExpr)
  | funcInit (f : Db → List Nat → ModelInstance → Option CounterValue)

/-- Python truthiness of `self._initializer` (only `None` is falsy). -/
def initializerTruthy : Initializer → Bool
  | .noInit => false
  | _ => true

/-- `self._locks[model_instance_id] = 1` (a dict-key insert). -/
def lockAdd (locks : List Nat) (i : Nat) : List Nat :=
  if i ∈ locks then locks else i :: locks

/-- `del self._locks[model_instance_id]` (a dict-key delete). -/
def lockDel (locks : List Nat) (i : Nat) : List Nat :=
  locks.filter (· ≠ i)

/-- The modelled column name of the counter field (`self.attname`). -/
def counterAttname : String := "counter"

/-- `CounterField._model_do_update`'s filter: a value survives the update list
when it is not a counter field, or is being set to `None`, or its attname was
explicitly named in a non-empty `update_fields`. -/
def doUpdateKeepValue (isCounter : Bool) (v : Option Int)
    (updateFields : Option (List String)) (attname : String) : Bool :=
  !isCounter || v.isNone ||
    (match updateFields with
     | some fs => !fs.isEmpty && fs.contains attname
     | none => false)

/-- `CounterField._reinit(model_instance)`.  Returns the database, the
instance, the lock set and the trace of storage operations; `none` models the
IndexError of the reload in the deferred-expression branch. -/
def counterReinit (init : Initializer) (locks : List Nat) (db : Db)
    (inst : ModelInstance) : Option (Db × ModelInstance × List Nat × List DbOp) :=
  if ¬ (pkTruthy inst.pk || initializerTruthy init) then
    some (db, inst, locks, [])
  else
    let (locks1, value) :=
      match init with
      | .noInit => (locks, some (CounterValue.intVal 0))
      | .exprInit e => (locks, some (CounterValue.exprVal e))
      | .funcInit f =>
        let l1 := lockAdd locks inst.iid
        let v := f db l1 inst
        (lockDel l1 inst.iid, v)
    match value with
    | none => some (db, inst, locks1, [])
    | some v0 =>
      let v1 := if isExprVal v0 && !(pkTruthy inst.pk) then CounterValue.intVal 0 else v0
      match v1 with
      | .exprVal e =>
        let db1 := dbExprUpdate db inst.pk e
        match reloadModelInstance db1 inst with
        | some inst1 =>
          some (db1, inst1, locks1, [DbOp.exprUpdate inst.pk, DbOp.read inst.pk])
        | none => none
      | .intVal n =>
        let inst1 := { inst with value := some n }
        if pkTruthy inst.pk then
          if doUpdateKeepValue true (some n) (some [counterAttname]) counterAttname then
            some (dbFieldWrite db inst.pk (some n), inst1, locks1,
                  [DbOp.fieldWrite inst.pk (some n)])
          else some (db, inst1, locks1, [])
        else some (db, inst1, locks1, [])

/-- `CounterField._post_init` composed with `_do_post_init`: skip entirely
while the instance identity is locked; otherwise reinit exactly when the
in-memory value is unset. -/
def counterPostInit (init : Initializer) (locks : List Nat) (db : Db)
    (inst : ModelInstance) : Option (Db × ModelInstance × List Nat × List DbOp) :=
  if inst.iid ∈ locks then some (db, inst, locks, [])
  else
    match inst.value with
    | none => counterReinit init locks db inst
    | some _ => some (db, inst, locks, [])

/-! ## Avatar service registry: state

Avatar services are identified by their unique `avatar_service_id` lookup
attribute, so a service is modelled by its id string. -/

abbrev ServiceId := String

/-- The `SiteConfiguration` key/value store restricted to the two keys the
registry uses (`avatars_enabled_services`, `avatars_default_service`), plus a
count of `siteconfig.save()` commits so a claim can observe whether the store
was written. -/
structure KVStore where
  enabledKey : Option (List ServiceId)
  defaultKey : Option ServiceId
  saveCount : Nat
deriving DecidableEq, Repr

/-- The registry state: the base-registry populated flag and catalog of
registered service ids, plus `_enabled_services`, `_default_service_id`, and
the persisted store. -/
structure RegState where
  populated : Bool
  registered : List ServiceId
  enabled : List ServiceId
  defaultService : Option ServiceId
  store : KVStore
deriving DecidableEq, Repr

/-- The error kinds of the registry taxonomy.  `avatarServiceNotFound` is the
registry's `lookup_error_class` (an `ItemLookupError`);
`notRegistered`/`alreadyRegistered` are the base-registry kinds. -/
inductive RegErr where
  | avatarServiceNotFound
  | disabledService
  | notRegistered
  | alreadyRegistered
deriving DecidableEq, Repr

/-- A fresh registry over a given persisted store
(`AvatarServiceRegistry.__init__`). -/
def initRegState (kv : KVStore) : RegState :=
  { populated := false, registered := [], enabled := [], defaultService := none,
    store := kv }

/-- Python `set.add` on a membership-based list representation. -/
def setAdd (l : List ServiceId) (x : ServiceId) : List ServiceId :=
  if x ∈ l then l else x :: l

/-- `AvatarServiceRegistry.save`: write the enabled list and the default id
to the store and commit it. -/
def saveReg (st : RegState) : RegState :=
  { st with store := { enabledKey := some st.enabled,
                       defaultKey := st.defaultService,
                       saveCount := st.store.saveCount + 1 } }

/-- The trailing `if save: self.save()` of the mutators. -/
def condSave (b : Bool) (st : RegState) : RegState :=
  if b then saveReg st else st

/-- `AvatarServiceRegistry.has_service`: the id resolves to a registered
service (the `get_avatar_service` lookup succeeds). -/
def hasService (st : RegState) (sid : ServiceId) : Bool :=
  decide (sid ∈ st.registered)

/-- `AvatarServiceRegistry.is_enabled`. -/
def isEnabled (st : RegState) (sid : ServiceId) : Bool :=
  hasService st sid && decide (sid ∈ st.enabled)

/-- The `default_service` property on an already-populated state: `none` when
no default id is set, otherwise the `get_avatar_service` lookup, which raises
the lookup error when the stored default id is not registered. -/
def defaultServiceCore (st : RegState) : Except RegErr (Option ServiceId) :=
  match st.defaultService with
  | none => Except.ok none
  | some d => if hasService st d then Except.ok (some d)
              else Except.error RegErr.avatarServiceNotFound

/-! ## Avatar service registry: mutators on a populated state

Each mutator returns the state it left behind together with the raised error,
if any; when an exception is raised the returned state is the state at the
raise point, so "raises before mutating anything" is the statement that the
returned state equals the input state. -/

/-- `AvatarServiceRegistry.set_default_service` (after its `populate()`
call). -/
def setDefaultServiceCore (st : RegState) (service : Option ServiceId)
    (save : Bool) : RegState × Option RegErr :=
  match service with
  | none => (condSave save { st with defaultService := none }, none)
  | some sid =>
    if ¬ (sid ∈ st.registered) then (st, some RegErr.avatarServiceNotFound)
    else if ¬ isEnabled st sid then (st, some RegErr.disabledService)
    else (condSave save { st with defaultService := some sid }, none)

/-- `AvatarServiceRegistry.enable_service` (after population). -/
def enableServiceCore (st : RegState) (sid : ServiceId) (save : Bool) :
    RegState × Option RegErr :=
  if ¬ hasService st sid then (st, some RegErr.avatarServiceNotFound)
  else (condSave save { st with enabled := setAdd st.enabled sid }, none)

/-- `AvatarServiceRegistry.disable_service` (after population): discard from
the enabled set, then clear the default via `set_default_service(None)` (with
its default `save=True`) when the disabled id was the default, then save if
requested. -/
def disableServiceCore (st : RegState) (sid : ServiceId) (save : Bool) :
    RegState × Option RegErr :=
  if ¬ hasService st sid then (st, some RegErr.avatarServiceNotFound)
  else
    let st1 := { st with enabled := st.enabled.filter (· ≠ sid) }
    match defaultServiceCore st1 with
    | Except.error e => (st1, some e)
    | Except.ok dflt =>
      let st2 :=
        match dflt with
        | some d => if d = sid then (setDefaultServiceCore st1 none true).1 else st1
        | none => st1
      (condSave save st2, none)

/-- The validation loop at the top of the `enabled_services` setter: raise the
lookup error at the first service that is not registered. -/
def validateAllRegistered (st : RegState) : List ServiceId → Option RegErr
  | [] => none
  | s :: rest =>
    if ¬ hasService st s then some RegErr.avatarServiceNotFound
    else validateAllRegistered st rest

/-- Fold step that threads a raised exception: once an error occurred the
remaining iterations do not run. -/
def stepFold (f : RegState → ServiceId → RegState × Option RegErr)
    (acc : RegState × Option RegErr) (i : ServiceId) : RegState × Option RegErr :=
  match acc with
  | (s, some e) => (s, some e)
  | (s, none) => f s i

/-- The body of the `enabled_services` setter after its validation loop
succeeded: disable the removals and enable the additions with deferred saves
(`to_disable` and `to_enable` are symmetric differences against the enabled
set as it was before the loops), clear the default if it ended up disabled,
then save once. -/
def setEnabledApply (st : RegState) (services : List ServiceId) :
    RegState × Option RegErr :=
  match (st.enabled.filter (fun i => !(services.contains i))).foldl
      (stepFold (fun s i => disableServiceCore s i false)) (st, none) with
  | (s1, some e) => (s1, some e)
  | (s1, none) =>
    match (services.filter (fun i => !(st.enabled.contains i))).foldl
        (stepFold (fun s i => enableServiceCore s i false)) (s1, none) with
    | (s2, some e) => (s2, some e)
    | (s2, none) =>
      match defaultServiceCore s2 with
      | Except.error e => (s2, some e)
      | Except.ok dflt =>
        let s3 :=
          match dflt with
          | some d => if ¬ isEnabled s2 d then (setDefaultServiceCore s2 none true).1
                      else s2
          | none => s2
        (saveReg s3, none)

/-- The `enabled_services` setter (after population): validate every element,
then apply the symmetric difference. -/
def setEnabledServicesCore (st : RegState) (services : List ServiceId) :
    RegState × Option RegErr :=
  match validateAllRegistered st services with
  | some e => (st, some e)
  | none => setEnabledApply st services

/-- `AvatarServiceRegistry.unregister` (after population): disable first (this
raises the lookup error for an unknown id), then remove from the catalog.
The base-registry removal is modelled from the spec: `unregister(entry)`
fails with `NotRegisteredError` if the entry is absent, else removes it from
all indices (the base `Registry` class is not part of the examined source). -/
def unregisterCore (st : RegState) (sid : ServiceId) : RegState × Option RegErr :=
  match disableServiceCore st sid true with
  | (st1, some e) => (st1, some e)
  | (st1, none) =>
    if sid ∈ st1.registered then
      ({ st1 with registered := st1.registered.filter (· ≠ sid) }, none)
    else (st1, some RegErr.notRegistered)

/-- `AvatarServiceRegistry.register` on a populated state.  Modelled from the
spec: `register(entry)` fails with `AlreadyRegisteredError` if a lookup
attribute value collides with an existing entry, otherwise inserts it (the
base `Registry` class is not part of the examined source). -/
def registerServiceCore (st : RegState) (sid : ServiceId) : RegState × Option RegErr :=
  if sid ∈ st.registered then (st, some RegErr.alreadyRegistered)
  else ({ st with registered := sid :: st.registered }, none)

/-! ## Avatar service registry: population -/

/-- The ids of `default_avatar_service_classes`.  Modelled from the spec: the
default list is a single built-in Gravatar-like service (the
`GravatarService` class is not part of the examined source). -/
def defaultAvatarServiceIds : List ServiceId := ["gravatar"]

/-- Base-registry `populate()`.  Modelled from the spec: idempotent; treats
the registry as already populated during its own execution, then registers
every entry yielded by `get_defaults()` (the base `Registry` class is not
part of the examined source). -/
def basePopulate (st : RegState) : RegState × Option RegErr :=
  if st.populated then (st, none)
  else
    defaultAvatarServiceIds.foldl
      (stepFold (fun s i => registerServiceCore s i))
      ({ st with populated := true }, none)

/-- The loop of `AvatarServiceRegistry.populate` over the persisted enabled
ids: registered ids are enabled with a deferred save, unknown ids are logged
and skipped. -/
def populateEnableLoop (ids : List ServiceId) (st : RegState) : RegState :=
  ids.foldl
    (fun s i => if hasService s i then (enableServiceCore s i false).1 else s) st

/-- `AvatarServiceRegistry.populate`: no-op when already populated; otherwise
base-populate, enable the valid persisted ids, then try to restore the
persisted default id — `ItemLookupError` (unknown id, from the `get` call)
and `DisabledServiceError` are caught and logged, leaving the default unset —
and finally save once. -/
def populateReg (st : RegState) : RegState × Option RegErr :=
  if st.populated then (st, none)
  else
    match basePopulate st with
    | (st1, some e) => (st1, some e)
    | (st1, none) =>
      let st2 :=
        match st1.store.enabledKey with
        | none => st1
        | some ids => populateEnableLoop ids st1
      let st3 :=
        match st2.store.defaultKey with
        | none => st2
        | some d =>
          if hasService st2 d then (setDefaultServiceCore st2 (some d) true).1
          else st2
      (saveReg st3, none)

/-! ## Avatar service registry: public operations

Every public accessor populates lazily on first use (the explicit
`self.populate()` calls, and the one reached through `has_service` /
`get_avatar_service`); an error raised by population aborts the call. -/

/-- Run a mutator behind the lazy population step. -/
def runPopulated (core : RegState → RegState × Option RegErr) (st : RegState) :
    RegState × Option RegErr :=
  match populateReg st with
  | (s, some e) => (s, some e)
  | (s, none) => core s

/-- Public `enable_service`. -/
def enableService (st : RegState) (sid : ServiceId) (save : Bool) :
    RegState × Option RegErr :=
  runPopulated (fun s => enableServiceCore s sid save) st

/-- Public `disable_service`. -/
def disableService (st : RegState) (sid : ServiceId) (save : Bool) :
    RegState × Option RegErr :=
  runPopulated (fun s => disableServiceCore s sid save) st

/-- Public `set_default_service`. -/
def setDefaultService (st : RegState) (service : Option ServiceId) (save : Bool) :
    RegState × Option RegErr :=
  runPopulated (fun s => setDefaultServiceCore s service save) st

/-- Public `enabled_services` bulk setter. -/
def setEnabledServices (st : RegState) (services : List ServiceId) :
    RegState × Option RegErr :=
  runPopulated (fun s => setEnabledServicesCore s services) st

/-- Public `unregister`. -/
def unregisterService (st : RegState) (sid : ServiceId) : RegState × Option RegErr :=
  runPopulated (fun s => unregisterCore s sid) st

/-- Public `register`. -/
def registerService (st : RegState) (sid : ServiceId) : RegState × Option RegErr :=
  runPopulated (fun s => registerServiceCore s sid) st

/-- `AvatarServiceRegistry.for_user` (after population): try the explicitly
requested id, then the user's stored preference
(`settings_manager.avatar_service_id`), each accepted only when registered
and enabled, and fall back to the `default_service` property. -/
def forUserCore (st : RegState) (userServiceId requestedId : Option ServiceId) :
    Except RegErr (Option ServiceId) :=
  match requestedId with
  | some sid =>
    if hasService st sid && isEnabled st sid then Except.ok (some sid)
    else
      match userServiceId with
      | some usid =>
        if hasService st usid && isEnabled st usid then Except.ok (some usid)
        else defaultServiceCore st
      | none => defaultServiceCore st
  | none =>
    match userServiceId with
    | some usid =>
      if hasService st usid && isEnabled st usid then Except.ok (some usid)
      else defaultServiceCore st
    | none => defaultServiceCore st

/-- Public `for_user`. -/
def forUser (st : RegState) (userServiceId requestedId : Option ServiceId) :
    Except RegErr (Option ServiceId) :=
  match populateReg st with
  | (_, some e) => Except.error e
  | (s, none) => forUserCore s userServiceId requestedId

/-! ## The registry operations and reachability -/

/-- A public mutating operation of the registry. -/
inductive RegOp where
  | register (sid : ServiceId)
  | enable (sid : ServiceId) (saveFlag : Bool)
  | disable (sid : ServiceId) (saveFlag : Bool)
  | setDefault (service : Option ServiceId) (saveFlag : Bool)
  | setEnabledList (services : List ServiceId)
  | unregisterOp (sid : ServiceId)
  | populateOp

/-- Apply a public operation; the resulting state is the state after the call
completed or raised. -/
def applyRegOp : RegOp → RegState → RegState × Option RegErr
  | RegOp.register sid, st => registerService st sid
  | RegOp.enable sid b, st => enableService st sid b
  | RegOp.disable sid b, st => disableService st sid b
  | RegOp.setDefault s b, st => setDefaultService st s b
  | RegOp.setEnabledList l, st => setEnabledServices st l
  | RegOp.unregisterOp sid, st => unregisterService st sid
  | RegOp.populateOp, st => populateReg st

/-- The states reachable from a fresh registry over an arbitrary persisted
store by any sequence of public operations. -/
inductive ReachableReg : RegState → Prop
  | init (kv : KVStore) : ReachableReg (initRegState kv)
  | step (op : RegOp) (st : RegState) :
      ReachableReg st → ReachableReg (applyRegOp op st).1

/-- The registry invariant: every enabled id is registered, and the default
id, when set, is enabled (and the default can only be set on a populated
registry). -/
def regInv (st : RegState) : Prop :=
  (∀ i ∈ st.enabled, i ∈ st.registered) ∧
  (∀ d, st.defaultService = some d → d ∈ st.enabled) ∧
  (st.defaultService ≠ none → st.populated = true)

/-- The observable half of the invariant claimed by the spec. -/
def defaultImpliesEnabled (st : RegState) : Prop :=
  st.defaultService = none ∨
    ∃ d, st.defaultService = some d ∧ d ∈ st.enabled

/-- The invariant together with the populated flag; this is what every core
mutator preserves (the public wrappers only run them on populated states). -/
def regInvP (st : RegState) : Prop :=
  regInv st ∧ st.populated = true

/-- The acceptance test of `for_user`'s resolution loop: the candidate id is
given (`sid is not None`), registered, and enabled. -/
def goodSid (st : RegState) : Option ServiceId → Bool
  | some sid => hasService st sid && isEnabled st sid
  | none => false

/-- Populate a fresh registry over a persisted store. -/
def populateFresh (kv : KVStore) : RegState × Option RegErr :=
  populateReg (initRegState kv)

/-! ## Basic lemmas about the database model -/

theorem dbLookup_updateWhere (db : Db) (p : Nat) (g : Option Int → Option Int) :
    dbLookup (dbUpdateWhere db (some p) g) p = (dbLookup db p).map g := by
  induction db with
  | nil => rfl
  | cons r rest ih =>
    rcases r with ⟨k, v⟩
    by_cases hk : k = p
    · subst hk
      simp [dbUpdateWhere, dbLookup]
    · simp [dbUpdateWhere, dbLookup, hk, ih]

theorem dbLookup_arithAdd (db : Db) (p : Nat) (d : Int) :
    dbLookup (dbArithAdd db (some p) d) p = (dbLookup db p).map (Option.map (· + d)) :=
  dbLookup_updateWhere db p _

theorem dbLookup_arithSub (db : Db) (p : Nat) (d : Int) :
    dbLookup (dbArithSub db (some p) d) p = (dbLookup db p).map (Option.map (· - d)) :=
  dbLookup_updateWhere db p _

theorem lockDel_lockAdd (locks : List Nat) (i : Nat) (hl : i ∉ locks) :
    lockDel (lockAdd locks i) i = locks := by
  simp only [lockAdd, if_neg hl, lockDel, List.filter_cons]
  rw [if_neg (by simp)]
  exact List.filter_eq_self.mpr (fun a ha => by
    simp only [ne_eq, decide_not, Bool.not_eq_true', decide_eq_false_iff_not]
    exact fun h => hl (h ▸ ha))

/-! ## Counter field: the claims -/

/-- C2: for every instance with a persisted identity and nonzero delta,
`_increment` (resp. `_decrement`) issues exactly one storage-side arithmetic
update `col = col + delta` (resp. `col = col - delta`) scoped to the
instance's primary key, with no application-level read before the write; and
starting from stored value 10, two `increment(+1)` updates before any reload
leave the stored value at 12. -/
theorem c2_counter_increment_atomic (db : Db) (inst : ModelInstance) (p : Nat)
    (delta : Int) (hpk : inst.pk = some p) (hd : delta ≠ 0) :
    counterIncrement db inst false delta
      = (some (dbArithAdd db (some p) delta, inst), [DbOp.arithAdd (some p) delta]) ∧
    counterDecrement db inst false delta
      = (some (dbArithSub db (some p) delta, inst), [DbOp.arithSub (some p) delta]) ∧
    (∀ v, dbLookup db p = some v →
       dbLookup (dbArithAdd db (some p) delta) p = some (v.map (· + delta)) ∧
       dbLookup (dbArithSub db (some p) delta) p = some (v.map (· - delta))) ∧
    (∀ b, (counterIncrement db inst b delta).2.head?
            = some (DbOp.arithAdd (some p) delta)) ∧
    (dbLookup db p = some (some 10) →
       ∃ db1 db2,
         counterIncrement db inst false 1
           = (some (db1, inst), [DbOp.arithAdd (some p) 1]) ∧
         counterIncrement db1 inst false 1
           = (some (db2, inst), [DbOp.arithAdd (some p) 1]) ∧
         dbLookup db2 p = some (some 12)) := by
  refine ⟨?_, ?_, ?_, ?_, ?_⟩
  · simp [counterIncrement, counterQsIncrement, hd, hpk]
  · simp [counterDecrement, counterQsDecrement, hd, hpk]
  · intro v hv
    rw [dbLookup_arithAdd, dbLookup_arithSub, hv]
    exact ⟨rfl, rfl⟩
  · intro b
    cases b with
    | false => simp [counterIncrement, counterQsIncrement, hd, hpk]
    | true =>
      simp only [counterIncrement, counterQsIncrement, if_neg hd, hpk]
      cases h : reloadModelInstance (dbArithAdd db (some p) delta)
          inst <;> simp [h, hpk]
  · intro h10
    refine ⟨dbArithAdd db (some p) 1, dbArithAdd (dbArithAdd db (some p) 1) (some p) 1,
      ?_, ?_, ?_⟩
    · simp [counterIncrement, counterQsIncrement, hpk]
    · simp [counterIncrement, counterQsIncrement, hpk]
    · rw [dbLookup_arithAdd, dbLookup_arithAdd, h10]
      rfl

/-- Witness for C2 at a concrete database and instance. -/
theorem c2_counter_increment_atomic_witness :
    counterIncrement [(1, some 10)] ⟨some 1, 0, none⟩ false 2
      = (some (dbArithAdd [(1, some 10)] (some 1) 2, ⟨some 1, 0, none⟩),
         [DbOp.arithAdd (some 1) 2]) ∧
    counterDecrement [(1, some 10)] ⟨some 1, 0, none⟩ false 2
      = (some (dbArithSub [(1, some 10)] (some 1) 2, ⟨some 1, 0, none⟩),
         [DbOp.arithSub (some 1) 2]) ∧
    (∀ v, dbLookup [(1, some 10)] 1 = some v →
       dbLookup (dbArithAdd [(1, some 10)] (some 1) 2) 1 = some (v.map (· + 2)) ∧
       dbLookup (dbArithSub [(1, some 10)] (some 1) 2) 1 = some (v.map (· - 2))) ∧
    (∀ b, (counterIncrement [(1, some 10)] ⟨some 1, 0, none⟩ b 2).2.head?
            = some (DbOp.arithAdd (some 1) 2)) ∧
    (dbLookup [(1, some 10)] 1 = some (some 10) →
       ∃ db1 db2,
         counterIncrement [(1, some 10)] ⟨some 1, 0, none⟩ false 1
           = (some (db1, ⟨some 1, 0, none⟩), [DbOp.arithAdd (some 1) 1]) ∧
         counterIncrement db1 ⟨some 1, 0, none⟩ false 1
           = (some (db2, ⟨some 1, 0, none⟩), [DbOp.arithAdd (some 1) 1]) ∧
         dbLookup db2 1 = some (some 12)) :=
  c2_counter_increment_atomic [(1, some 10)] ⟨some 1, 0, none⟩ 1 2 rfl (by decide)

/-- C7: when the initializer yields a deferred storage-side expression and the
instance has no persisted identity, `_reinit` stores the concrete integer 0 in
memory and issues no storage operation. -/
theorem c7_deferred_expr_presave_coercion (db : Db) (inst : ModelInstance)
    (locks : List Nat) (e : DbExpr) (hpk : pkTruthy inst.pk = false) :
    counterReinit (Initializer.exprInit e) locks db inst
      = some (db, { inst with value := some 0 }, locks, []) := by
  simp [counterReinit, hpk, initializerTruthy, isExprVal]

/-- Witness for C7 on a pk-less instance. -/
theorem c7_deferred_expr_presave_coercion_witness :
    counterReinit (Initializer.exprInit (DbExpr.colPlus 5)) [] [] ⟨none, 7, none⟩
      = some ([], { pk := none, iid := 7, value := some 0 }, [], []) :=
  c7_deferred_expr_presave_coercion [] ⟨none, 7, none⟩ [] (DbExpr.colPlus 5) rfl

/-- C9: while the initializer runs, the per-instance lock is held, so any
nested `post_init` trigger for the same instance identity performs no second
reinit; the final in-memory value is the initializer's single returned value,
and the lock set is restored (released) right after the initializer returns. -/
theorem c9_lazy_init_recursion_guard
    (f : Db → List Nat → ModelInstance → Option CounterValue)
    (locks : List Nat) (db : Db) (inst : ModelInstance) (n : Int)
    (hl : inst.iid ∉ locks)
    (hf : f db (lockAdd locks inst.iid) inst = some (CounterValue.intVal n)) :
    (∀ (db' : Db) (inst' : ModelInstance), inst'.iid = inst.iid →
       counterPostInit (Initializer.funcInit f) (lockAdd locks inst.iid) db' inst'
         = some (db', inst', lockAdd locks inst.iid, [])) ∧
    (∃ db' tr, counterReinit (Initializer.funcInit f) locks db inst
         = some (db', { inst with value := some n }, locks, tr)) := by
  constructor
  · intro db' inst' hii
    have hmem : inst'.iid ∈ lockAdd locks inst.iid := by
      simp [lockAdd, hl, hii]
    simp [counterPostInit, hmem]
  · by_cases hp : pkTruthy inst.pk = true
    · refine ⟨dbFieldWrite db inst.pk (some n), [DbOp.fieldWrite inst.pk (some n)], ?_⟩
      simp [counterReinit, initializerTruthy, hp, hf, lockDel_lockAdd locks inst.iid hl,
        isExprVal, doUpdateKeepValue, counterAttname]
    · refine ⟨db, [], ?_⟩
      simp only [Bool.not_eq_true] at hp
      simp [counterReinit, initializerTruthy, hp, hf, lockDel_lockAdd locks inst.iid hl,
        isExprVal]

/-- Witness for C9 with a constant initializer. -/
theorem c9_lazy_init_recursion_guard_witness :
    (∀ (db' : Db) (inst' : ModelInstance), inst'.iid = (5 : Nat) →
       counterPostInit (Initializer.funcInit (fun _ _ _ => some (CounterValue.intVal 7)))
           (lockAdd [] 5) db' inst'
         = some (db', inst', lockAdd [] 5, [])) ∧
    (∃ db' tr,
       counterReinit (Initializer.funcInit (fun _ _ _ => some (CounterValue.intVal 7)))
           [] [] ⟨none, 5, none⟩
         = some (db', { pk := none, iid := 5, value := some 7 }, [], tr)) :=
  c9_lazy_init_recursion_guard (fun _ _ _ => some (CounterValue.intVal 7))
    [] [] ⟨none, 5, none⟩ 7 (by simp) rfl

/-- C10: with no initializer configured and a persisted identity, `_reinit`
sets the in-memory value to 0 and immediately persists it with a single-field
write; the silent no-write deferral happens only when the persisted identity
is additionally missing. -/
theorem c10_reinit_no_initializer_with_pk (db : Db) (inst : ModelInstance)
    (locks : List Nat) (p : Nat) (hpk : inst.pk = some p) (hp : p ≠ 0) :
    counterReinit Initializer.noInit locks db inst
      = some (dbFieldWrite db (some p) (some 0), { inst with value := some 0 }, locks,
              [DbOp.fieldWrite (some p) (some 0)]) ∧
    (∀ (db' : Db) (inst' : ModelInstance) (locks' : List Nat),
       pkTruthy inst'.pk = false →
       counterReinit Initializer.noInit locks' db' inst'
         = some (db', inst', locks', [])) := by
  constructor
  · simp [counterReinit, hpk, pkTruthy, hp, isExprVal, doUpdateKeepValue, counterAttname]
  · intro db' inst' locks' hfalse
    simp [counterReinit, hfalse, initializerTruthy]

/-- Witness for C10 at pk 3. -/
theorem c10_reinit_no_initializer_with_pk_witness :
    counterReinit Initializer.noInit [] [(3, none)] ⟨some 3, 0, none⟩
      = some (dbFieldWrite [(3, none)] (some 3) (some 0),
              { pk := some 3, iid := 0, value := some 0 }, [],
              [DbOp.fieldWrite (some 3) (some 0)]) ∧
    (∀ (db' : Db) (inst' : ModelInstance) (locks' : List Nat),
       pkTruthy inst'.pk = false →
       counterReinit Initializer.noInit locks' db' inst'
         = some (db', inst', locks', [])) :=
  c10_reinit_no_initializer_with_pk [(3, none)] ⟨some 3, 0, none⟩ [] 3 rfl (by decide)

/-! ## Basic lemmas about the registry -/

theorem populate_of_populated {st : RegState} (hp : st.populated = true) :
    populateReg st = (st, none) := by
  simp [populateReg, hp]

theorem mem_setAdd {l : List ServiceId} {x y : ServiceId} :
    y ∈ setAdd l x ↔ y = x ∨ y ∈ l := by
  by_cases hx : x ∈ l
  · simp only [setAdd, if_pos hx]
    constructor
    · exact Or.inr
    · rintro (rfl | h)
      · exact hx
      · exact h
  · simp [setAdd, hx]

theorem mem_of_isEnabled {st : RegState} {sid : ServiceId}
    (h : isEnabled st sid = true) : sid ∈ st.enabled := by
  simp only [isEnabled, hasService, Bool.and_eq_true, decide_eq_true_eq] at h
  exact h.2

theorem isEnabled_of_mem {st : RegState} {sid : ServiceId}
    (hr : sid ∈ st.registered) (he : sid ∈ st.enabled) : isEnabled st sid = true := by
  simp [isEnabled, hasService, hr, he]

theorem defaultServiceCore_ok {st : RegState}
    (hd : ∀ d, st.defaultService = some d → d ∈ st.registered) :
    defaultServiceCore st = Except.ok st.defaultService := by
  cases hdef : st.defaultService with
  | none => simp [defaultServiceCore, hdef]
  | some d =>
    have := hd d hdef
    simp [defaultServiceCore, hdef, hasService, this]

theorem disableCore_err {st : RegState} {sid : ServiceId} (b : Bool)
    (hs : sid ∉ st.registered) :
    disableServiceCore st sid b = (st, some RegErr.avatarServiceNotFound) := by
  simp [disableServiceCore, hasService, hs]

theorem disableCore_spec {st : RegState} {sid : ServiceId} (b : Bool)
    (hd : ∀ d, st.defaultService = some d → d ∈ st.registered)
    (hs : sid ∈ st.registered) :
    disableServiceCore st sid b =
      (condSave b (if st.defaultService = some sid then
           saveReg { st with enabled := st.enabled.filter (· ≠ sid),
                             defaultService := none }
         else { st with enabled := st.enabled.filter (· ≠ sid) }), none) := by
  have hsvc : hasService st sid = true := by simp [hasService, hs]
  cases hdef : st.defaultService with
  | none =>
    simp [disableServiceCore, hsvc, defaultServiceCore, hdef]
  | some d =>
    have hreg : d ∈ st.registered := hd d hdef
    by_cases hds : d = sid
    · subst hds
      simp [disableServiceCore, hsvc, defaultServiceCore, hdef, hasService, hreg,
        setDefaultServiceCore, condSave]
    · simp [disableServiceCore, hsvc, defaultServiceCore, hdef, hasService, hreg,
        hds, hs, Option.some.injEq]

theorem condSave_registered (b : Bool) (st : RegState) :
    (condSave b st).registered = st.registered := by cases b <;> rfl

theorem condSave_enabled (b : Bool) (st : RegState) :
    (condSave b st).enabled = st.enabled := by cases b <;> rfl

theorem condSave_defaultService (b : Bool) (st : RegState) :
    (condSave b st).defaultService = st.defaultService := by cases b <;> rfl

theorem condSave_populated (b : Bool) (st : RegState) :
    (condSave b st).populated = st.populated := by cases b <;> rfl

theorem saveReg_registered (st : RegState) : (saveReg st).registered = st.registered := rfl

theorem saveReg_enabled (st : RegState) : (saveReg st).enabled = st.enabled := rfl

theorem saveReg_defaultService (st : RegState) :
    (saveReg st).defaultService = st.defaultService := rfl

theorem saveReg_populated (st : RegState) : (saveReg st).populated = st.populated := rfl

theorem disableCore_success {st st1 : RegState} {sid : ServiceId} {b : Bool}
    (hd : ∀ d, st.defaultService = some d → d ∈ st.registered)
    (hs : sid ∈ st.registered)
    (heq : disableServiceCore st sid b = (st1, none)) :
    st1.registered = st.registered ∧
    st1.enabled = st.enabled.filter (· ≠ sid) ∧
    st1.populated = st.populated ∧
    (st1.defaultService = none ∨
      (st1.defaultService = st.defaultService ∧ st.defaultService ≠ some sid)) := by
  rw [disableCore_spec b hd hs] at heq
  have hst1 : st1 = condSave b (if st.defaultService = some sid then
      saveReg { st with enabled := st.enabled.filter (· ≠ sid), defaultService := none }
    else { st with enabled := st.enabled.filter (· ≠ sid) }) :=
    ((Prod.mk.injEq _ _ _ _).mp heq).1.symm
  subst hst1
  by_cases hdef : st.defaultService = some sid
  · rw [if_pos hdef]
    exact ⟨by simp [condSave_registered, saveReg_registered],
           by simp [condSave_enabled, saveReg_enabled],
           by simp [condSave_populated, saveReg_populated],
           Or.inl (by simp [condSave_defaultService, saveReg_defaultService])⟩
  · rw [if_neg hdef]
    exact ⟨by simp [condSave_registered], by simp [condSave_enabled],
           by simp [condSave_populated],
           Or.inr ⟨by simp [condSave_defaultService], hdef⟩⟩

/-! ## Preservation of the registry invariant -/

theorem invP_saveReg {st : RegState} (h : regInvP st) : regInvP (saveReg st) := h

theorem invP_condSave (b : Bool) {st : RegState} (h : regInvP st) :
    regInvP (condSave b st) := by
  cases b
  · exact h
  · exact h

theorem invP_setDefaultCore (service : Option ServiceId) (b : Bool) {st : RegState}
    (h : regInvP st) : regInvP (setDefaultServiceCore st service b).1 := by
  obtain ⟨⟨h1, h2, h3⟩, hp⟩ := h
  cases service with
  | none =>
    exact invP_condSave b ⟨⟨h1, fun d hd => Option.noConfusion hd, fun _ => hp⟩, hp⟩
  | some sid =>
    by_cases hr : sid ∈ st.registered
    · by_cases he : isEnabled st sid = true
      · rw [setDefaultServiceCore, if_neg (not_not_intro hr),
          if_neg (not_not_intro he)]
        exact invP_condSave b
          ⟨⟨h1, fun d hd => (Option.some.inj hd) ▸ mem_of_isEnabled he,
            fun _ => hp⟩, hp⟩
      · rw [setDefaultServiceCore, if_neg (not_not_intro hr), if_pos he]
        exact ⟨⟨h1, h2, h3⟩, hp⟩
    · rw [setDefaultServiceCore, if_pos hr]
      exact ⟨⟨h1, h2, h3⟩, hp⟩

theorem invP_enableCore (sid : ServiceId) (b : Bool) {st : RegState}
    (h : regInvP st) : regInvP (enableServiceCore st sid b).1 := by
  obtain ⟨⟨h1, h2, h3⟩, hp⟩ := h
  by_cases hr : hasService st sid = true
  · rw [enableServiceCore, if_neg (by simp [hr])]
    have hmem : sid ∈ st.registered := by
      simpa [hasService] using hr
    refine invP_condSave b ⟨⟨?_, ?_, fun _ => hp⟩, hp⟩
    · intro i hi
      rcases mem_setAdd.mp hi with rfl | hi'
      · exact hmem
      · exact h1 i hi'
    · intro d hd
      exact mem_setAdd.mpr (Or.inr (h2 d hd))
  · rw [enableServiceCore, if_pos (by simp [hr])]
    exact ⟨⟨h1, h2, h3⟩, hp⟩

theorem invP_disableCore (sid : ServiceId) (b : Bool) {st : RegState}
    (h : regInvP st) : regInvP (disableServiceCore st sid b).1 := by
  obtain ⟨⟨h1, h2, h3⟩, hp⟩ := h
  by_cases hs : sid ∈ st.registered
  · rw [disableCore_spec b (fun d hd => h1 d (h2 d hd)) hs]
    apply invP_condSave
    by_cases hdef : st.defaultService = some sid
    · rw [if_pos hdef]
      exact invP_saveReg
        ⟨⟨fun i hi => h1 i (List.mem_of_mem_filter hi),
          fun d hd => Option.noConfusion hd, fun _ => hp⟩, hp⟩
    · rw [if_neg hdef]
      refine ⟨⟨fun i hi => h1 i (List.mem_of_mem_filter hi), ?_, fun _ => hp⟩, hp⟩
      intro d hd
      refine List.mem_filter.mpr ⟨h2 d hd, ?_⟩
      simp only [ne_eq, decide_eq_true_eq, decide_not, Bool.not_eq_true',
        decide_eq_false_iff_not]
      exact fun hcontra => hdef (hcontra ▸ hd)
  · rw [disableCore_err b hs]
    exact ⟨⟨h1, h2, h3⟩, hp⟩

theorem invP_registerCore (sid : ServiceId) {st : RegState} (h : regInvP st) :
    regInvP (registerServiceCore st sid).1 := by
  obtain ⟨⟨h1, h2, h3⟩, hp⟩ := h
  by_cases hr : sid ∈ st.registered
  · rw [registerServiceCore, if_pos hr]
    exact ⟨⟨h1, h2, h3⟩, hp⟩
  · rw [registerServiceCore, if_neg hr]
    exact ⟨⟨fun i hi => List.mem_cons_of_mem _ (h1 i hi), h2, fun _ => hp⟩, hp⟩

theorem invP_unregisterCore (sid : ServiceId) {st : RegState} (h : regInvP st) :
    regInvP (unregisterCore st sid).1 := by
  have hdis := invP_disableCore sid true h
  obtain ⟨⟨h1, h2, h3⟩, hp⟩ := h
  rw [unregisterCore]
  cases hd : disableServiceCore st sid true with
  | mk st1 e =>
    rw [hd] at hdis
    cases e with
    | some err => exact hdis
    | none =>
      obtain ⟨⟨g1, g2, g3⟩, gp⟩ := hdis
      by_cases hs : sid ∈ st.registered
      · obtain ⟨hr1, hr2, hr3, hr4⟩ :=
          disableCore_success (fun d hdd => h1 d (h2 d hdd)) hs hd
        show regInvP (if sid ∈ st1.registered then
            ({ st1 with registered := st1.registered.filter (· ≠ sid) }, none)
          else (st1, some RegErr.notRegistered)).1
        rw [if_pos (show sid ∈ st1.registered by rw [hr1]; exact hs)]
        refine ⟨⟨?_, ?_, fun _ => gp⟩, gp⟩
        · intro i hi
          have hi2 : i ∈ st.enabled.filter (· ≠ sid) := by rw [← hr2]; exact hi
          exact List.mem_filter.mpr ⟨g1 i hi, (List.mem_filter.mp hi2).2⟩
        · exact g2
      · rw [disableCore_err true hs] at hd
        exact absurd ((Prod.mk.injEq _ _ _ _).mp hd).2 (by simp)

theorem invP_foldl (f : RegState → ServiceId → RegState × Option RegErr)
    (hf : ∀ s i, regInvP s → regInvP (f s i).1) (l : List ServiceId) :
    ∀ acc : RegState × Option RegErr, regInvP acc.1 →
      regInvP ((l.foldl (stepFold f) acc).1) := by
  induction l with
  | nil => exact fun acc h => h
  | cons x xs ih =>
    intro acc h
    rw [List.foldl_cons]
    apply ih
    rcases acc with ⟨s, e⟩
    cases e with
    | none => exact hf s x h
    | some err => exact h

theorem invP_setEnabledApply (l : List ServiceId) {st : RegState} (h : regInvP st) :
    regInvP (setEnabledApply st l).1 := by
  rw [setEnabledApply]
  have hdis := invP_foldl _ (fun s i hs => invP_disableCore i false hs)
    (st.enabled.filter (fun i => !(l.contains i))) (st, none) h
  cases hfold1 : (st.enabled.filter (fun i => !(l.contains i))).foldl
      (stepFold (fun s i => disableServiceCore s i false)) (st, none) with
  | mk s1 e1 =>
    rw [hfold1] at hdis
    cases e1 with
    | some e => exact hdis
    | none =>
      simp only []
      have hen := invP_foldl _ (fun s i hs => invP_enableCore i false hs)
        (l.filter (fun i => !(st.enabled.contains i))) (s1, none) hdis
      cases hfold2 : (l.filter (fun i => !(st.enabled.contains i))).foldl
          (stepFold (fun s i => enableServiceCore s i false)) (s1, none) with
      | mk s2 e2 =>
        rw [hfold2] at hen
        cases e2 with
        | some e => exact hen
        | none =>
          simp only []
          cases hdc : defaultServiceCore s2 with
          | error e => exact hen
          | ok dflt =>
            simp only []
            cases dflt with
            | none => exact invP_saveReg hen
            | some d =>
              by_cases hde : isEnabled s2 d = true
              · simp only [hde, not_true, if_neg, if_false, ite_false]
                exact invP_saveReg hen
              · simp only [Bool.not_eq_true] at hde
                simp only [hde, Bool.false_eq_true, not_false_iff, if_true, ite_true]
                exact invP_saveReg (invP_setDefaultCore none true hen)

theorem invP_setEnabledCore (l : List ServiceId) {st : RegState} (h : regInvP st) :
    regInvP (setEnabledServicesCore st l).1 := by
  rw [setEnabledServicesCore]
  cases hv : validateAllRegistered st l with
  | some e => exact h
  | none => exact invP_setEnabledApply l h

theorem invP_populateEnableLoop (ids : List ServiceId) :
    ∀ st : RegState, regInvP st → regInvP (populateEnableLoop ids st) := by
  induction ids with
  | nil => exact fun st h => h
  | cons x xs ih =>
    intro st h
    rw [populateEnableLoop, List.foldl_cons]
    have hstep : regInvP (if hasService st x then (enableServiceCore st x false).1
        else st) := by
      split
      · exact invP_enableCore x false h
      · exact h
    exact ih _ hstep

theorem invP_populateReg {st : RegState} (h : regInv st) :
    regInvP (populateReg st).1 := by
  by_cases hp : st.populated = true
  · rw [populate_of_populated hp]
    exact ⟨h, hp⟩
  · obtain ⟨h1, h2, h3⟩ := h
    have hdef : st.defaultService = none := by
      cases hdd : st.defaultService with
      | none => rfl
      | some d => exact absurd (h3 (by simp [hdd])) hp
    rw [populateReg, if_neg hp, basePopulate, if_neg hp]
    simp only [defaultAvatarServiceIds, List.foldl_cons, List.foldl_nil, stepFold]
    have hmid : regInvP (registerServiceCore { st with populated := true } "gravatar").1 :=
      invP_registerCore "gravatar"
        ⟨⟨h1, fun d hd => absurd (hdef ▸ hd) (by simp), fun _ => rfl⟩, rfl⟩
    cases hreg : registerServiceCore { st with populated := true } "gravatar" with
    | mk st1 e =>
      rw [hreg] at hmid
      cases e with
      | some err => exact hmid
      | none =>
        simp only []
        have hloop : regInvP (match st1.store.enabledKey with
            | none => st1
            | some ids => populateEnableLoop ids st1) := by
          cases st1.store.enabledKey with
          | none => exact hmid
          | some ids => exact invP_populateEnableLoop ids st1 hmid
        generalize hst2 : (match st1.store.enabledKey with
            | none => st1
            | some ids => populateEnableLoop ids st1) = st2 at hloop ⊢
        have hst3 : regInvP (match st2.store.defaultKey with
            | none => st2
            | some d => if hasService st2 d
                then (setDefaultServiceCore st2 (some d) true).1 else st2) := by
          cases st2.store.defaultKey with
          | none => exact hloop
          | some d =>
            simp only []
            by_cases hsvc : hasService st2 d = true
            · rw [if_pos hsvc]
              exact invP_setDefaultCore (some d) true hloop
            · rw [if_neg hsvc]
              exact hloop
        exact invP_saveReg hst3

theorem invP_runPopulated (core : RegState → RegState × Option RegErr)
    (hcore : ∀ s : RegState, regInvP s → regInvP (core s).1) {st : RegState}
    (h : regInv st) : regInvP (runPopulated core st).1 := by
  have hpop := invP_populateReg h
  rw [runPopulated]
  cases hq : populateReg st with
  | mk s e =>
    rw [hq] at hpop
    cases e with
    | none => exact hcore s hpop
    | some err => exact hpop

theorem invP_applyRegOp (op : RegOp) {st : RegState} (h : regInv st) :
    regInvP (applyRegOp op st).1 := by
  cases op with
  | register sid =>
    exact invP_runPopulated _ (fun s hs => invP_registerCore sid hs) h
  | enable sid b =>
    exact invP_runPopulated _ (fun s hs => invP_enableCore sid b hs) h
  | disable sid b =>
    exact invP_runPopulated _ (fun s hs => invP_disableCore sid b hs) h
  | setDefault sv b =>
    exact invP_runPopulated _ (fun s hs => invP_setDefaultCore sv b hs) h
  | setEnabledList l =>
    exact invP_runPopulated _ (fun s hs => invP_setEnabledCore l hs) h
  | unregisterOp sid =>
    exact invP_runPopulated _ (fun s hs => invP_unregisterCore sid hs) h
  | populateOp => exact invP_populateReg h

theorem reachable_regInv {st : RegState} (h : ReachableReg st) : regInv st := by
  induction h with
  | init kv =>
    exact ⟨fun i hi => absurd hi (List.not_mem_nil i),
           fun d hd => Option.noConfusion hd,
           fun hne => absurd rfl hne⟩
  | step op st' hst ih => exact (invP_applyRegOp op ih).1

theorem defaultImpliesEnabled_of_regInv {st : RegState} (h : regInv st) :
    defaultImpliesEnabled st := by
  cases hdef : st.defaultService with
  | none => exact Or.inl hdef
  | some d => exact Or.inr ⟨d, hdef, h.2.1 d hdef⟩

/-! ## Registry claims -/

/-- C1: on every reachable registry state, and after every public mutating
operation (enable, disable, set-default, the bulk setter, unregister,
populate, register), the default service id is `None` or a member of the
enabled set; and disabling the current default clears the default as part of
the same call. -/
theorem c1_default_implies_enabled (op : RegOp) (st : RegState)
    (h : ReachableReg st) :
    defaultImpliesEnabled st ∧
    defaultImpliesEnabled (applyRegOp op st).1 ∧
    (∀ (sid : ServiceId) (b : Bool), st.defaultService = some sid →
       ((applyRegOp (RegOp.disable sid b) st).1).defaultService = none) := by
  have hin := reachable_regInv h
  refine ⟨defaultImpliesEnabled_of_regInv hin,
    defaultImpliesEnabled_of_regInv (invP_applyRegOp op hin).1, ?_⟩
  intro sid b hdef
  have hp : st.populated = true := hin.2.2 (by simp [hdef])
  have hs : sid ∈ st.registered := hin.1 sid (hin.2.1 sid hdef)
  show ((disableService st sid b).1).defaultService = none
  rw [disableService, runPopulated, populate_of_populated hp]
  simp only []
  rw [disableCore_spec b (fun d hd => hin.1 d (hin.2.1 d hd)) hs, if_pos hdef]
  simp [condSave_defaultService, saveReg_defaultService]

theorem validateAll_of_unregistered {st : RegState} :
    ∀ (l : List ServiceId) (s0 : ServiceId), s0 ∈ l → s0 ∉ st.registered →
      validateAllRegistered st l = some RegErr.avatarServiceNotFound := by
  intro l
  induction l with
  | nil => exact fun s0 h _ => absurd h (List.not_mem_nil s0)
  | cons x xs ih =>
    intro s0 hmem hbad
    by_cases hx : hasService st x = true
    · have hne : s0 ≠ x := by
        intro he
        rw [he] at hbad
        exact hbad (by simpa [hasService] using hx)
      rw [validateAllRegistered, if_neg (not_not_intro hx)]
      rcases List.mem_cons.mp hmem with he | hrest
      · exact absurd he hne
      · exact ih s0 hrest hbad
    · rw [validateAllRegistered, if_pos hx]

/-- C3: the bulk `enabled_services` setter validates every element before any
mutation; when some element is not registered it raises the lookup error with
the registry state (enabled set, default, persisted store) exactly as it was. -/
theorem c3_bulk_setter_fail_atomic (st : RegState) (services : List ServiceId)
    (s0 : ServiceId) (hp : st.populated = true) (hmem : s0 ∈ services)
    (hbad : s0 ∉ st.registered) :
    setEnabledServices st services = (st, some RegErr.avatarServiceNotFound) := by
  rw [setEnabledServices, runPopulated, populate_of_populated hp]
  simp only []
  rw [setEnabledServicesCore, validateAll_of_unregistered services s0 hmem hbad]

/-- Witness for C3: one unregistered id among the requested services. -/
theorem c3_bulk_setter_fail_atomic_witness :
    setEnabledServices
        (⟨true, ["gravatar"], [], none, ⟨none, none, 0⟩⟩ : RegState)
        ["gravatar", "bogus"]
      = ((⟨true, ["gravatar"], [], none, ⟨none, none, 0⟩⟩ : RegState),
         some RegErr.avatarServiceNotFound) :=
  c3_bulk_setter_fail_atomic ⟨true, ["gravatar"], [], none, ⟨none, none, 0⟩⟩
    ["gravatar", "bogus"] "bogus" rfl (by simp) (by simp)

/-- Counterexample to C4 as stated: disabling the service that is currently
the default with `save=False` does write the key/value store (the nested
`set_default_service(None)` runs with its default `save=True`). -/
theorem c4_counterexample :
    ¬ (((disableService
          (⟨true, ["a"], ["a"], some "a", ⟨some ["a"], some "a", 0⟩⟩ : RegState)
          "a" false).1).store
        = (⟨some ["a"], some "a", 0⟩ : KVStore)) := by
  decide

/-- C4 (amended): `disable_service(id, save=False)` removes the id from the
enabled set and writes nothing to the store provided the id is not the
current default; when the id is the current default, the default is cleared
and the nested default-clear persists the registry to the store once. -/
theorem c4_deferred_disable_amended (st : RegState) (sid : ServiceId)
    (h : regInv st) (hp : st.populated = true) (hs : sid ∈ st.registered) :
    (st.defaultService ≠ some sid →
       disableService st sid false
         = ({ st with enabled := st.enabled.filter (· ≠ sid) }, none)) ∧
    (st.defaultService = some sid →
       disableService st sid false
         = (saveReg { st with enabled := st.enabled.filter (· ≠ sid),
                              defaultService := none }, none) ∧
       ((disableService st sid false).1).store.saveCount = st.store.saveCount + 1 ∧
       ((disableService st sid false).1).defaultService = none) := by
  have hd : ∀ d, st.defaultService = some d → d ∈ st.registered :=
    fun d hdd => h.1 d (h.2.1 d hdd)
  have hbase : disableService st sid false
      = (condSave false (if st.defaultService = some sid then
           saveReg { st with enabled := st.enabled.filter (· ≠ sid),
                             defaultService := none }
         else { st with enabled := st.enabled.filter (· ≠ sid) }), none) := by
    rw [disableService, runPopulated, populate_of_populated hp]
    simp only []
    exact disableCore_spec false hd hs
  constructor
  · intro hne
    rw [hbase, if_neg hne]
    rfl
  · intro heq
    rw [hbase, if_pos heq]
    exact ⟨rfl, rfl, rfl⟩

/-- Witness for C4's amended statement. -/
theorem c4_deferred_disable_amended_witness :
    ((⟨true, ["a", "b"], ["a", "b"], some "a", ⟨none, none, 0⟩⟩ : RegState).defaultService
        ≠ some "b" →
       disableService (⟨true, ["a", "b"], ["a", "b"], some "a", ⟨none, none, 0⟩⟩ : RegState)
           "b" false
         = ({ (⟨true, ["a", "b"], ["a", "b"], some "a", ⟨none, none, 0⟩⟩ : RegState) with
              enabled := (⟨true, ["a", "b"], ["a", "b"], some "a",
                ⟨none, none, 0⟩⟩ : RegState).enabled.filter (· ≠ "b") }, none)) ∧
    ((⟨true, ["a", "b"], ["a", "b"], some "a", ⟨none, none, 0⟩⟩ : RegState).defaultService
        = some "b" →
       disableService (⟨true, ["a", "b"], ["a", "b"], some "a", ⟨none, none, 0⟩⟩ : RegState)
           "b" false
         = (saveReg { (⟨true, ["a", "b"], ["a", "b"], some "a", ⟨none, none, 0⟩⟩ : RegState) with
              enabled := (⟨true, ["a", "b"], ["a", "b"], some "a",
                ⟨none, none, 0⟩⟩ : RegState).enabled.filter (· ≠ "b"),
              defaultService := none }, none) ∧
       ((disableService (⟨true, ["a", "b"], ["a", "b"], some "a",
           ⟨none, none, 0⟩⟩ : RegState) "b" false).1).store.saveCount
         = (⟨true, ["a", "b"], ["a", "b"], some "a", ⟨none, none, 0⟩⟩ : RegState).store.saveCount + 1 ∧
       ((disableService (⟨true, ["a", "b"], ["a", "b"], some "a",
           ⟨none, none, 0⟩⟩ : RegState) "b" false).1).defaultService = none) :=
  c4_deferred_disable_amended ⟨true, ["a", "b"], ["a", "b"], some "a", ⟨none, none, 0⟩⟩ "b"
    ⟨fun i hi => hi,
     fun d hd => by rw [← Option.some.inj hd]; simp,
     fun _ => rfl⟩
    rfl (by simp)

/-- Counterexample to C5 as stated: unregistering an absent service raises the
registry's lookup error (`AvatarServiceNotFoundError`, from the disable step),
not `NotRegisteredError`. -/
theorem c5_counterexample :
    ¬ ((unregisterService (⟨true, ["gravatar"], [], none, ⟨none, none, 0⟩⟩ : RegState)
          "missing").2
        = some RegErr.notRegistered) := by
  decide

/-- C5 (amended): unregistering a service that is not registered fails with
the registry's lookup error and leaves the registry state unchanged. -/
theorem c5_unregister_unknown_amended (st : RegState) (sid : ServiceId)
    (hp : st.populated = true) (hs : sid ∉ st.registered) :
    unregisterService st sid = (st, some RegErr.avatarServiceNotFound) := by
  rw [unregisterService, runPopulated, populate_of_populated hp]
  simp only []
  rw [unregisterCore, disableCore_err true hs]

/-- Witness for C5's amended statement. -/
theorem c5_unregister_unknown_amended_witness :
    unregisterService (⟨true, ["gravatar"], [], none, ⟨none, none, 0⟩⟩ : RegState) "missing"
      = ((⟨true, ["gravatar"], [], none, ⟨none, none, 0⟩⟩ : RegState),
         some RegErr.avatarServiceNotFound) :=
  c5_unregister_unknown_amended ⟨true, ["gravatar"], [], none, ⟨none, none, 0⟩⟩
    "missing" rfl (by simp)

/-- C8: `for_user` resolves, in order, the explicitly requested id (when
registered and enabled), then the user's stored preference (when registered
and enabled), then the registry default, and never raises; in particular a
registered-but-disabled requested id B loses to an enabled preference A. -/
theorem c8_for_user_resolution (st : RegState) (userPref reqId : Option ServiceId)
    (hp : st.populated = true)
    (hd : ∀ d, st.defaultService = some d → d ∈ st.registered) :
    forUser st userPref reqId
      = Except.ok (if goodSid st reqId = true then reqId
                   else if goodSid st userPref = true then userPref
                   else st.defaultService) ∧
    (∀ a b2 : ServiceId, reqId = some b2 → b2 ∈ st.registered → b2 ∉ st.enabled →
       userPref = some a → a ∈ st.registered → a ∈ st.enabled →
       forUser st userPref reqId = Except.ok (some a)) := by
  have hfu : forUser st userPref reqId = forUserCore st userPref reqId := by
    rw [forUser, populate_of_populated hp]
  constructor
  · rw [hfu]
    cases reqId with
    | none =>
      cases userPref with
      | none => simp [forUserCore, goodSid, defaultServiceCore_ok hd]
      | some a =>
        by_cases ha : (hasService st a && isEnabled st a) = true
        · simp [forUserCore, goodSid, ha]
        · simp [forUserCore, goodSid, ha, defaultServiceCore_ok hd]
    | some s =>
      by_cases hsg : (hasService st s && isEnabled st s) = true
      · simp [forUserCore, goodSid, hsg]
      · cases userPref with
        | none => simp [forUserCore, goodSid, hsg, defaultServiceCore_ok hd]
        | some a =>
          by_cases ha : (hasService st a && isEnabled st a) = true
          · simp [forUserCore, goodSid, hsg, ha]
          · simp [forUserCore, goodSid, hsg, ha, defaultServiceCore_ok hd]
  · rintro a b2 rfl hbr hbe rfl har hae
    rw [hfu]
    have hb : (hasService st b2 && isEnabled st b2) = false := by
      simp [isEnabled, hasService, hbr, hbe]
    have ha : (hasService st a && isEnabled st a) = true := by
      simp [isEnabled, hasService, har, hae]
    simp [forUserCore, hb, ha]

/-- Witness for C8: B registered but disabled, preference A enabled. -/
theorem c8_for_user_resolution_witness :
    forUser (⟨true, ["A", "B"], ["A"], none, ⟨none, none, 0⟩⟩ : RegState)
        (some "A") (some "B")
      = Except.ok
          (if goodSid (⟨true, ["A", "B"], ["A"], none, ⟨none, none, 0⟩⟩ : RegState)
                (some "B") = true then some "B"
           else if goodSid (⟨true, ["A", "B"], ["A"], none, ⟨none, none, 0⟩⟩ : RegState)
                (some "A") = true then some "A"
           else (⟨true, ["A", "B"], ["A"], none, ⟨none, none, 0⟩⟩ : RegState).defaultService) ∧
    (∀ a b2 : ServiceId, (some "B" : Option ServiceId) = some b2 →
       b2 ∈ (⟨true, ["A", "B"], ["A"], none, ⟨none, none, 0⟩⟩ : RegState).registered →
       b2 ∉ (⟨true, ["A", "B"], ["A"], none, ⟨none, none, 0⟩⟩ : RegState).enabled →
       (some "A" : Option ServiceId) = some a →
       a ∈ (⟨true, ["A", "B"], ["A"], none, ⟨none, none, 0⟩⟩ : RegState).registered →
       a ∈ (⟨true, ["A", "B"], ["A"], none, ⟨none, none, 0⟩⟩ : RegState).enabled →
       forUser (⟨true, ["A", "B"], ["A"], none, ⟨none, none, 0⟩⟩ : RegState)
           (some "A") (some "B")
         = Except.ok (some a)) :=
  c8_for_user_resolution ⟨true, ["A", "B"], ["A"], none, ⟨none, none, 0⟩⟩
    (some "A") (some "B") rfl (fun _ hd => Option.noConfusion hd)

theorem populateEnableLoop_shape (ids : List ServiceId) :
    ∀ st : RegState,
      (populateEnableLoop ids st).registered = st.registered ∧
      (populateEnableLoop ids st).defaultService = st.defaultService ∧
      (populateEnableLoop ids st).populated = st.populated ∧
      (populateEnableLoop ids st).store = st.store ∧
      (∀ i, i ∈ (populateEnableLoop ids st).enabled ↔
         i ∈ st.enabled ∨ (i ∈ ids ∧ i ∈ st.registered)) := by
  induction ids with
  | nil =>
    intro st
    exact ⟨rfl, rfl, rfl, rfl, fun i => by rw [populateEnableLoop]; simp⟩
  | cons x xs ih =>
    intro st
    rw [populateEnableLoop, List.foldl_cons]
    by_cases hx : hasService st x = true
    · rw [if_pos hx]
      have hxr : x ∈ st.registered := by simpa [hasService] using hx
      have hstep : (enableServiceCore st x false).1
          = { st with enabled := setAdd st.enabled x } := by
        rw [enableServiceCore, if_neg (not_not_intro hx)]
        rfl
      rw [hstep]
      obtain ⟨r1, r2, r3, r4, r5⟩ := ih { st with enabled := setAdd st.enabled x }
      refine ⟨r1, r2, r3, r4, fun i => ?_⟩
      refine Iff.trans (r5 i) ?_
      simp only [List.mem_cons]
      constructor
      · rintro (hsa | ⟨hxs, hreg⟩)
        · rcases mem_setAdd.mp hsa with rfl | he
          · exact Or.inr ⟨Or.inl rfl, hxr⟩
          · exact Or.inl he
        · exact Or.inr ⟨Or.inr hxs, hreg⟩
      · rintro (he | ⟨hx2, hreg⟩)
        · exact Or.inl (mem_setAdd.mpr (Or.inr he))
        · rcases hx2 with rfl | hxs
          · exact Or.inl (mem_setAdd.mpr (Or.inl rfl))
          · exact Or.inr ⟨hxs, hreg⟩
    · rw [if_neg hx]
      have hxr : x ∉ st.registered := by
        intro hm
        exact hx (by simp [hasService, hm])
      obtain ⟨r1, r2, r3, r4, r5⟩ := ih st
      refine ⟨r1, r2, r3, r4, fun i => ?_⟩
      refine Iff.trans (r5 i) ?_
      simp only [List.mem_cons]
      constructor
      · rintro (he | ⟨hxs, hreg⟩)
        · exact Or.inl he
        · exact Or.inr ⟨Or.inr hxs, hreg⟩
      · rintro (he | ⟨hx2, hreg⟩)
        · exact Or.inl he
        · rcases hx2 with rfl | hxs
          · exact absurd hreg hxr
          · exact Or.inr ⟨hxs, hreg⟩

theorem populateDefaultStep {st2 : RegState} (d0 : ServiceId)
    (hdef2 : st2.defaultService = none)
    (hsub : ∀ i ∈ st2.enabled, i ∈ st2.registered) :
    ∃ st3 : RegState,
      (if hasService st2 d0 then (setDefaultServiceCore st2 (some d0) true).1 else st2)
        = st3 ∧
      st3.registered = st2.registered ∧ st3.populated = st2.populated ∧
      st3.enabled = st2.enabled ∧
      (∀ d, st3.defaultService = some d ↔ (d0 = d ∧ d ∈ st2.enabled)) := by
  by_cases hsvc : hasService st2 d0 = true
  · by_cases hect : isEnabled st2 d0 = true
    · have hset : (setDefaultServiceCore st2 (some d0) true).1
          = saveReg { st2 with defaultService := some d0 } := by
        rw [setDefaultServiceCore,
          if_neg (not_not_intro (by simpa [hasService] using hsvc)),
          if_neg (not_not_intro hect)]
        rfl
      refine ⟨saveReg { st2 with defaultService := some d0 },
        by rw [if_pos hsvc, hset],
        saveReg_registered _, saveReg_populated _, saveReg_enabled _, fun d => ?_⟩
      rw [saveReg_defaultService]
      constructor
      · intro hd
        have hd0 := Option.some.inj hd
        exact ⟨hd0, hd0 ▸ mem_of_isEnabled hect⟩
      · rintro ⟨hdd, _⟩
        exact congrArg some hdd
    · have hset : (setDefaultServiceCore st2 (some d0) true).1 = st2 := by
        rw [setDefaultServiceCore,
          if_neg (not_not_intro (by simpa [hasService] using hsvc)),
          if_pos hect]
      refine ⟨st2, by rw [if_pos hsvc, hset], rfl, rfl, rfl, fun d => ?_⟩
      rw [hdef2]
      constructor
      · exact fun hd => Option.noConfusion hd
      · rintro ⟨hdd, hm⟩
        subst hdd
        exact absurd (isEnabled_of_mem (by simpa [hasService] using hsvc) hm) hect
  · refine ⟨st2, by rw [if_neg hsvc], rfl, rfl, rfl, fun d => ?_⟩
    rw [hdef2]
    constructor
    · exact fun hd => Option.noConfusion hd
    · rintro ⟨hdd, hm⟩
      subst hdd
      exact absurd (by simp [hasService, hsub d0 hm] : hasService st2 d0 = true) hsvc

/-- C6: `populate()` on a fresh registry never raises, whatever the persisted
configuration: the persisted enabled ids that are registered become enabled
and unknown ones are skipped; the persisted default id becomes the default
exactly when it is registered and enabled, and is otherwise dropped with the
default left unset; the reconciled state is saved back to the store. -/
theorem c6_populate_tolerant (kv : KVStore) :
    (populateFresh kv).2 = none ∧
    ((populateFresh kv).1).populated = true ∧
    (∀ i, i ∈ ((populateFresh kv).1).enabled ↔
       (i ∈ kv.enabledKey.getD [] ∧ i ∈ ((populateFresh kv).1).registered)) ∧
    (∀ d, ((populateFresh kv).1).defaultService = some d ↔
       (kv.defaultKey = some d ∧ d ∈ ((populateFresh kv).1).enabled)) ∧
    ((populateFresh kv).1).store.enabledKey = some ((populateFresh kv).1).enabled ∧
    ((populateFresh kv).1).store.defaultKey = ((populateFresh kv).1).defaultService := by
  rcases kv with ⟨ek, dk, sc⟩
  obtain ⟨st2, hst2eq, hreg2, hdef2, hpop2, hsto2, hen2⟩ :
      ∃ st2 : RegState,
        (match ek with
          | none => (⟨true, ["gravatar"], [], none, ⟨ek, dk, sc⟩⟩ : RegState)
          | some ids =>
            populateEnableLoop ids ⟨true, ["gravatar"], [], none, ⟨ek, dk, sc⟩⟩)
          = st2 ∧
        st2.registered = ["gravatar"] ∧ st2.defaultService = none ∧
        st2.populated = true ∧ st2.store = ⟨ek, dk, sc⟩ ∧
        (∀ i, i ∈ st2.enabled ↔
           i ∈ ek.getD [] ∧ i ∈ (["gravatar"] : List ServiceId)) := by
    cases ek with
    | none => exact ⟨_, rfl, rfl, rfl, rfl, rfl, fun i => by simp⟩
    | some ids =>
      obtain ⟨r1, r2, r3, r4, r5⟩ :=
        populateEnableLoop_shape ids ⟨true, ["gravatar"], [], none, ⟨some ids, dk, sc⟩⟩
      refine ⟨_, rfl, r1, r2, r3, r4, fun i => ?_⟩
      rw [r5 i]
      simp
  have hsub2 : ∀ i ∈ st2.enabled, i ∈ st2.registered := by
    intro i hi
    rw [hreg2]
    exact ((hen2 i).mp hi).2
  cases dk with
  | none =>
    have hfinal : populateFresh ⟨ek, none, sc⟩ = (saveReg st2, none) := by
      rw [populateFresh, populateReg, if_neg (by simp [initRegState]),
        show basePopulate (initRegState ⟨ek, none, sc⟩)
          = ((⟨true, ["gravatar"], [], none, ⟨ek, none, sc⟩⟩ : RegState), none) from rfl]
      simp only []
      rw [hst2eq, show st2.store.defaultKey = none from by rw [hsto2]]
    rw [hfinal]
    refine ⟨rfl, by rw [saveReg_populated]; exact hpop2, fun i => ?_, fun d => ?_,
      rfl, rfl⟩
    · rw [saveReg_enabled, saveReg_registered, hreg2]
      exact hen2 i
    · rw [saveReg_defaultService, hdef2]
      simp
  | some d0 =>
    obtain ⟨st3, hst3eq, hreg3, hpop3, hen3, hdef3⟩ :=
      populateDefaultStep d0 hdef2 hsub2
    have hfinal : populateFresh ⟨ek, some d0, sc⟩ = (saveReg st3, none) := by
      rw [populateFresh, populateReg, if_neg (by simp [initRegState]),
        show basePopulate (initRegState ⟨ek, some d0, sc⟩)
          = ((⟨true, ["gravatar"], [], none, ⟨ek, some d0, sc⟩⟩ : RegState), none) from rfl]
      simp only []
      rw [hst2eq, show st2.store.defaultKey = some d0 from by rw [hsto2]]
      simp only []
      rw [hst3eq]
    rw [hfinal]
    refine ⟨rfl, by rw [saveReg_populated, hpop3]; exact hpop2, fun i => ?_,
      fun d => ?_, rfl, rfl⟩
    · rw [saveReg_enabled, saveReg_registered, hen3, hreg3, hreg2]
      exact hen2 i
    · rw [saveReg_defaultService, saveReg_enabled, hen3]
      rw [hdef3 d]
      constructor
      · rintro ⟨rfl, hm⟩
        exact ⟨rfl, hm⟩
      · rintro ⟨hdd, hm⟩
        exact ⟨Option.some.inj hdd, hm⟩

/-- Witness for C1 on a fresh registry followed by a populate. -/
theorem c1_default_implies_enabled_witness :
    defaultImpliesEnabled (initRegState ⟨none, none, 0⟩) ∧
    defaultImpliesEnabled
      (applyRegOp RegOp.populateOp (initRegState ⟨none, none, 0⟩)).1 ∧
    (∀ (sid : ServiceId) (b : Bool),
       (initRegState ⟨none, none, 0⟩).defaultService = some sid →
       ((applyRegOp (RegOp.disable sid b) (initRegState ⟨none, none, 0⟩)).1).defaultService
         = none) :=
  c1_default_implies_enabled RegOp.populateOp (initRegState ⟨none, none, 0⟩)
    (ReachableReg.init ⟨none, none, 0⟩)

end Djblets
